import Mathlib

/-!
Verification of the contact-management utility in `MiniProject.py`.

The development shallow-embeds the program's pure logic:

* `MyLibrary.validate_phone_number` — the regex
  `^((\(\d{3}\)\s?)|(\d{3}-))?\d{3}-\d{4}$` checked with `re.match`, embedded
  as a structurally faithful matcher (`altParen`, `altDash`, `bodyTail`:
  one disjunct per path through the optional group, `$` modelled by
  `matchEnd`, which accepts the end of the string or a single final
  newline, as Python's `$` does outside MULTILINE mode).
* `MyLibrary.extract_emails` — `re.findall` with the pattern
  `[a-zA-Z0-9_.+-]+@[a-zA-Z0-9-]+\.[a-zA-Z0-9-.]+`, embedded as the
  leftmost scan `findAux` whose per-position matcher `emailMatch` performs
  the engine's greedy backtracking (each `+` tries its maximal run first
  and shrinks on failure).
* `CSVProcessor.read_csv` / `write_csv` — the `csv` module's excel dialect
  (delimiter `,`, quotechar `"`, doubled quotes, lineterminator CRLF,
  QUOTE_MINIMAL), embedded as the character-level reader state machine
  `csvRun` and the writer `write_csv_content`.  The backing file is a
  `Option String` (`none` = the file does not exist; `read_file` in the
  source converts `FileNotFoundError` into an empty result).
* `JSONProcessor.read_json` / `write_json` — modelled at the level of the
  parsed JSON value (`json.dump` followed by `json.load` is
  value-preserving for the string-keyed objects the program stores, so the
  structured resource holds the object itself).
* `ContactManager` — a state machine over the two in-memory structures and
  the two backing resources.

Character classes: the regex classes used by the program are pure ASCII
except `\d` and `\s`.  `\s` is embedded as the exact set of characters
Python's `re` accepts for `\s` on `str` patterns; `\d` is embedded as the
ASCII digits `0-9` (the only digits occurring in the program's data; the
same class is used on both the code side and the spec side of every
theorem, so no theorem below depends on the wider Unicode class).
-/

/-- ASCII digit, the embedding of the pattern class `\d`. -/
def pyDigit (c : Char) : Bool := 48 ≤ c.toNat && c.toNat ≤ 57

/-- The characters matched by Python's `\s` on `str` patterns:
ASCII whitespace, the information-separator controls, NEL, NBSP and the
Unicode space/line/paragraph separators. -/
def pySpace (c : Char) : Bool :=
  let n := c.toNat
  (9 ≤ n && n ≤ 13) || n = 32 || (28 ≤ n && n ≤ 31) || n = 0x85 || n = 0xa0 ||
  n = 0x1680 || (0x2000 ≤ n && n ≤ 0x200a) || n = 0x2028 || n = 0x2029 ||
  n = 0x202f || n = 0x205f || n = 0x3000

/-- ASCII letter (the class `[a-zA-Z]`). -/
def pyAlpha (c : Char) : Bool :=
  (65 ≤ c.toNat && c.toNat ≤ 90) || (97 ≤ c.toNat && c.toNat ≤ 122)

/-- The local-part class `[a-zA-Z0-9_.+-]` of the email pattern. -/
def isLocalChar (c : Char) : Bool :=
  pyAlpha c || pyDigit c || c = '_' || c = '.' || c = '+' || c = '-'

/-- The domain-group class `[a-zA-Z0-9-]` of the email pattern. -/
def isGroupChar (c : Char) : Bool :=
  pyAlpha c || pyDigit c || c = '-'

/-- The domain-tail class `[a-zA-Z0-9-.]` of the email pattern. -/
def isTailChar (c : Char) : Bool :=
  pyAlpha c || pyDigit c || c = '-' || c = '.'

/-! ## Phone validation: `MyLibrary.validate_phone_number`

The source checks `bool(re.match(r'^((\(\d{3}\)\s?)|(\d{3}-))?\d{3}-\d{4}$',
phone_number))`.  Sequencing is embedded with small consumers returning the
unread rest; alternation and the optional group become disjunctions (for a
boolean result only the existence of a matching path matters, not the
engine's preference order). -/

/-- Consume one fixed character. -/
def lit (ch : Char) : List Char → Option (List Char)
  | [] => none
  | c :: l => if c = ch then some l else none

/-- Consume `n` characters of the class `\d`. -/
def digitsN : Nat → List Char → Option (List Char)
  | 0, l => some l
  | _ + 1, [] => none
  | n + 1, c :: l => if pyDigit c then digitsN n l else none

/-- Consume one character of the class `\s` (for the pattern piece `\s?`). -/
def spaceOne : List Char → Option (List Char)
  | [] => none
  | c :: l => if pySpace c then some l else none

/-- The anchor `$` outside MULTILINE mode: end of input, or a single
newline followed by end of input. -/
def matchEnd : List Char → Bool
  | [] => true
  | [c] => c = '\n'
  | _ => false

/-- The mandatory trunk `\d{3}-\d{4}$` of the phone pattern. -/
def bodyTail (l : List Char) : Bool :=
  Option.any matchEnd (((digitsN 3 l).bind (lit '-')).bind (digitsN 4))

/-- The alternative `\(\d{3}\)\s?` of the optional group, followed by the
trunk: the `\s?` yields two paths, with and without one whitespace
character. -/
def altParen (l : List Char) : Bool :=
  Option.any (fun r => bodyTail r || Option.any bodyTail (spaceOne r))
    (((lit '(' l).bind (digitsN 3)).bind (lit ')'))

/-- The alternative `\d{3}-` of the optional group, followed by the trunk. -/
def altDash (l : List Char) : Bool :=
  Option.any bodyTail ((digitsN 3 l).bind (lit '-'))

/-- `MyLibrary.validate_phone_number`: the three ways the optional group can
contribute (first alternative, second alternative, absent). -/
def validate_phone_number (s : String) : Bool :=
  altParen s.data || altDash s.data || bodyTail s.data

/-! ## The spec's phone shapes

The specification describes four shapes: `(DDD) DDD-DDDD`, `(DDD)DDD-DDDD`,
`DDD-DDD-DDDD` and bare `DDD-DDDD`.  Each shape is transcribed from those
words; the parameter `e` states what may follow the shape (`listDone`:
nothing, the shape is the entire string; `matchEnd`: nothing or one final
newline). -/

/-- End of string: the shape is the whole input. -/
def listDone (l : List Char) : Bool := l.isEmpty

/-- Spec shape `DDD-DDDD`. -/
def shapeBare (e : List Char → Bool) (l : List Char) : Bool :=
  Option.any e (((digitsN 3 l).bind (lit '-')).bind (digitsN 4))

/-- Spec shape `DDD-` followed by `DDD-DDDD`. -/
def shapeHyph (e : List Char → Bool) (l : List Char) : Bool :=
  Option.any (shapeBare e) ((digitsN 3 l).bind (lit '-'))

/-- Spec shape `(DDD)` directly followed by `DDD-DDDD`. -/
def shapeParen (e : List Char → Bool) (l : List Char) : Bool :=
  Option.any (shapeBare e) (((lit '(' l).bind (digitsN 3)).bind (lit ')'))

/-- Spec shape `(DDD)`, one separator character accepted by `sep`, then
`DDD-DDDD`. -/
def shapeParenGap (sep : List Char → Option (List Char))
    (e : List Char → Bool) (l : List Char) : Bool :=
  Option.any (fun r => Option.any (shapeBare e) (sep r))
    (((lit '(' l).bind (digitsN 3)).bind (lit ')'))

/-- The four shapes exactly as the claim words them: the separator after the
parenthesized area code is one literal space, and the shape is the entire
string. -/
def phoneShapeStrict (s : String) : Bool :=
  shapeParenGap (lit ' ') listDone s.data || shapeParen listDone s.data ||
  shapeHyph listDone s.data || shapeBare listDone s.data

/-- The four shapes as the code accepts them: the separator may be any `\s`
character and one trailing newline is tolerated by `$`. -/
def phoneShapeFull (s : String) : Bool :=
  shapeParenGap spaceOne matchEnd s.data || shapeParen matchEnd s.data ||
  shapeHyph matchEnd s.data || shapeBare matchEnd s.data

/-- The four shapes with `\s` separators and nothing after them: a string
that is exactly a valid phone number, with no trailing characters at all. -/
def phoneExact (l : List Char) : Bool :=
  shapeParenGap spaceOne listDone l || shapeParen listDone l ||
  shapeHyph listDone l || shapeBare listDone l

/-! ## Email extraction: `MyLibrary.extract_emails`

The source runs `re.findall(r'[a-zA-Z0-9_.+-]+@[a-zA-Z0-9-]+\.[a-zA-Z0-9-.]+',
text)`.  `findall` scans left to right; at each position the engine matches
each `+` greedily — maximal run first, shrinking one character at a time on
failure of the remainder of the pattern — and after a match the scan resumes
at its end (non-overlapping). -/

/-- Length of the maximal run of characters of class `p` at the front. -/
def runLen (p : Char → Bool) : List Char → Nat
  | [] => 0
  | c :: l => if p c then runLen p l + 1 else 0

/-- The final piece `[a-zA-Z0-9-.]+`: greedy, nothing follows, so its first
attempt (the maximal nonempty run) succeeds. Returns the matched length. -/
def tryTail (l : List Char) : Option Nat :=
  match l with
  | [] => none
  | c :: _ => if isTailChar c then some (runLen isTailChar l) else none

/-- Backtracking search for `[a-zA-Z0-9-]+\.[a-zA-Z0-9-.]+`: the group
length is tried from `j` (initially its maximal run) downwards; each
candidate must be followed by the literal dot and the tail piece. Returns
the total matched length. -/
def grpSearch (l : List Char) : Nat → Option Nat
  | 0 => none
  | j + 1 =>
    match l.drop (j + 1) with
    | [] => grpSearch l j
    | c :: r =>
      if c = '.' then
        match tryTail r with
        | some k => some (j + 1 + (1 + k))
        | none => grpSearch l j
      else grpSearch l j

/-- The domain part `[a-zA-Z0-9-]+\.[a-zA-Z0-9-.]+` starting at `l`. -/
def domainMatch (l : List Char) : Option Nat :=
  grpSearch l (runLen isGroupChar l)

/-- Backtracking search for the whole pattern: the local-part length is
tried from `j` (initially its maximal run) downwards; each candidate must be
followed by the literal `@` and the domain. Returns the matched length. -/
def locSearch (l : List Char) : Nat → Option Nat
  | 0 => none
  | j + 1 =>
    match l.drop (j + 1) with
    | [] => locSearch l j
    | c :: r =>
      if c = '@' then
        match domainMatch r with
        | some d => some (j + 1 + (1 + d))
        | none => locSearch l j
      else locSearch l j

/-- Match of the email pattern anchored at the current position. -/
def emailMatch (l : List Char) : Option Nat :=
  locSearch l (runLen isLocalChar l)

/-- The `findall` scan: emit the match at the current position and resume
after it, otherwise advance one character.  Every match is nonempty, so
`fuel = length of the input` suffices for the whole scan; the recursion is
structural in the fuel. -/
def findAux : Nat → List Char → List (List Char)
  | 0, _ => []
  | fuel + 1, l =>
    match emailMatch l with
    | some n => l.take n :: findAux fuel (l.drop n)
    | none =>
      match l with
      | [] => []
      | _ :: tl => findAux fuel tl

/-- `MyLibrary.extract_emails`. -/
def extract_emails (s : String) : List String :=
  (findAux s.data.length s.data).map String.mk

/-! ## The spec's email shapes

The claim describes the result as the non-overlapping maximal substrings
matching `local-part@domain`.  Two domain grammars appear below:
`emailShapeClaimed` is the claim's own grammar (one or more dot-separated
groups, a single dot-free group allowed), used to state the counterexample;
`specTryEmail`/`specEmailScan` is the amended grammar (leading group, one
mandatory dot, then one or more tail characters), with maximality rendered
as: the local part, the leading group and the tail are maximal runs of
their classes — no character of the respective class is left unconsumed
adjacent to them, and a longer matching substring at the same position does
not exist. -/

/-- Domain per the claim's grammar: one or more nonempty dot-separated
groups of `[a-zA-Z0-9-]`.  `seen` records whether the current group already
has a character. -/
def groupsAux (seen : Bool) : List Char → Bool
  | [] => seen
  | c :: r =>
    if c = '.' then seen && groupsAux false r
    else isGroupChar c && groupsAux true r

/-- The claim's email shape: a nonempty local part, `@`, then dot-separated
groups with no dot required after the final group (so a single dot-free
group qualifies).  Since `@` is not a local-part character, the local part
of any decomposition is exactly the leading local-character run. -/
def emailShapeClaimed (l : List Char) : Bool :=
  let m := runLen isLocalChar l
  if m = 0 then false else
  match l.drop m with
  | [] => false
  | c :: r => c = '@' && groupsAux false r

/-- Maximal match of the amended shape at the current position: maximal
nonempty local run, `@`, maximal nonempty group run, `.`, maximal nonempty
tail run. -/
def specTryEmail (l : List Char) : Option Nat :=
  let m := runLen isLocalChar l
  if m = 0 then none else
  match l.drop m with
  | [] => none
  | c :: r =>
    if c = '@' then
      let b := runLen isGroupChar r
      if b = 0 then none else
      match r.drop b with
      | [] => none
      | c2 :: r2 =>
        if c2 = '.' then
          let k := runLen isTailChar r2
          if k = 0 then none else some (m + (1 + (b + (1 + k))))
        else none
    else none

/-- The spec-side scan: leftmost maximal matches, non-overlapping. -/
def specScanAux : Nat → List Char → List (List Char)
  | 0, _ => []
  | fuel + 1, l =>
    match specTryEmail l with
    | some n => l.take n :: specScanAux fuel (l.drop n)
    | none =>
      match l with
      | [] => []
      | _ :: tl => specScanAux fuel tl

/-- The sequence of non-overlapping maximal substrings of `s` matching the
amended email shape. -/
def specEmailScan (s : String) : List String :=
  (specScanAux s.data.length s.data).map String.mk

/-! ## Tabular persistence: `CSVProcessor`

`read_csv` opens the file with `newline=''` and parses it with `csv.reader`
(excel dialect); a missing file yields `[]`.  `write_csv` opens with
`newline=''` and writes with `csv.writer`: fields joined by `,`, records
terminated by CRLF, a field is quoted exactly when it contains a delimiter,
a quote or a line-terminator character — or when it is the only field of
its record and is empty — and quotes inside a quoted field are doubled.

The reader is embedded as the character-level form of the module's state
machine: `sr` at start of record, `crlf` right after a record-ending `\r`
(one following `\n` belongs to the same terminator), `sf` right after a
delimiter, `fld` inside an unquoted field, `quo` inside a quoted field and
`aqu` right after a quote inside a quoted field.  A blank line yields the
empty record; at end of data a pending field or record is emitted
(non-strict dialect); a quote inside an unquoted field is literal and
characters after a closing quote rejoin the field. -/

/-- Parser states of the csv reader. -/
inductive CState where
  | sr | crlf | sf | fld | quo | aqu
deriving DecidableEq, Repr

/-- The csv reader: `cur` is the current field, `row` the fields of the
current record, in order. -/
def csvRun (st : CState) (cur : List Char) (row : List String) :
    List Char → List (List String)
  | [] =>
    match st with
    | .sr => []
    | .crlf => []
    | .sf => [row ++ [""]]
    | .fld => [row ++ [String.mk cur]]
    | .quo => [row ++ [String.mk cur]]
    | .aqu => [row ++ [String.mk cur]]
  | c :: r =>
    match st with
    | .sr =>
      if c = '\r' then [] :: csvRun .crlf [] [] r
      else if c = '\n' then [] :: csvRun .sr [] [] r
      else if c = '"' then csvRun .quo [] [] r
      else if c = ',' then csvRun .sf [] [""] r
      else csvRun .fld [c] [] r
    | .crlf =>
      if c = '\n' then csvRun .sr [] [] r
      else if c = '\r' then [] :: csvRun .crlf [] [] r
      else if c = '"' then csvRun .quo [] [] r
      else if c = ',' then csvRun .sf [] [""] r
      else csvRun .fld [c] [] r
    | .sf =>
      if c = '\r' then (row ++ [""]) :: csvRun .crlf [] [] r
      else if c = '\n' then (row ++ [""]) :: csvRun .sr [] [] r
      else if c = '"' then csvRun .quo [] row r
      else if c = ',' then csvRun .sf [] (row ++ [""]) r
      else csvRun .fld [c] row r
    | .fld =>
      if c = '\r' then (row ++ [String.mk cur]) :: csvRun .crlf [] [] r
      else if c = '\n' then (row ++ [String.mk cur]) :: csvRun .sr [] [] r
      else if c = ',' then csvRun .sf [] (row ++ [String.mk cur]) r
      else csvRun .fld (cur ++ [c]) row r
    | .quo =>
      if c = '"' then csvRun .aqu cur row r
      else csvRun .quo (cur ++ [c]) row r
    | .aqu =>
      if c = '"' then csvRun .quo (cur ++ ['"']) row r
      else if c = ',' then csvRun .sf [] (row ++ [String.mk cur]) r
      else if c = '\r' then (row ++ [String.mk cur]) :: csvRun .crlf [] [] r
      else if c = '\n' then (row ++ [String.mk cur]) :: csvRun .sr [] [] r
      else csvRun .fld (cur ++ [c]) row r

/-- `CSVProcessor.read_csv`: `none` models a missing file
(`FileNotFoundError` is caught and `[]` returned). -/
def read_csv (file : Option String) : List (List String) :=
  match file with
  | none => []
  | some s => csvRun .sr [] [] s.data

/-- A field must be quoted when it contains `,`, `"`, `\r` or `\n`, or when
it is the only field of its record and is empty. -/
def fieldNeedsQuote (single : Bool) (f : String) : Bool :=
  f.data.any (fun c => c = ',' || c = '"' || c = '\r' || c = '\n') ||
  (single && f.data.isEmpty)

/-- Double every quote character (quoted-field escaping). -/
def escQuotes : List Char → List Char
  | [] => []
  | c :: l => if c = '"' then '"' :: '"' :: escQuotes l else c :: escQuotes l

/-- Render one field, quoting it when the dialect requires. -/
def renderField (single : Bool) (f : String) : List Char :=
  if fieldNeedsQuote single f then '"' :: (escQuotes f.data ++ ['"']) else f.data

/-- Render the delimiter-prefixed remainder of a record. -/
def renderRest : List String → List Char
  | [] => []
  | f :: fs => ',' :: (renderField false f ++ renderRest fs)

/-- Render one record followed by the CRLF terminator. -/
def renderRow : List String → List Char
  | [] => ['\r', '\n']
  | f :: fs => renderField fs.isEmpty f ++ (renderRest fs ++ ['\r', '\n'])

/-- `CSVProcessor.write_csv`: the full content written to the file. -/
def write_csv_content (rows : List (List String)) : String :=
  String.mk (rows.map renderRow).flatten

/-! ## Structured persistence: `JSONProcessor`

The structured resource is modelled at the level of the JSON value it
contains (`json.dump` with string keys followed by `json.load` is
value-preserving, so the text encoding is not re-verified here; values are
restricted to the atomic JSON values, with numbers as integers — the
program only ever stores strings).  A Python `dict` keeps insertion order
and an update of an existing key keeps its position, which `dictSet`
mirrors. -/

/-- Atomic JSON-representable values. -/
inductive JVal where
  | jnull
  | jbool (b : Bool)
  | jnum (n : Int)
  | jstr (s : String)
deriving DecidableEq, Repr

/-- A JSON object / Python dict: ordered key-value pairs, keys unique. -/
abbrev JMap := List (String × JVal)

/-- `d[k] = v` on a Python dict: replace in place, or append a new key. -/
def dictSet (m : JMap) (k : String) (v : JVal) : JMap :=
  match m with
  | [] => [(k, v)]
  | (k', v') :: rest => if k' = k then (k, v) :: rest else (k', v') :: dictSet rest k v

/-- Lookup in a dict. -/
def dictGet (m : JMap) (k : String) : Option JVal :=
  match m with
  | [] => none
  | (k', v') :: rest => if k' = k then some v' else dictGet rest k

/-- `JSONProcessor.read_json`: `none` models a missing file
(`FileNotFoundError` is caught and `{}` returned). -/
def read_json (file : Option JMap) : JMap :=
  match file with
  | none => []
  | some m => m

/-! ## `ContactManager` -/

/-- The two backing resources: the tabular file (by content) and the
structured file (by the object it contains); `none` = the file is absent. -/
structure FSt where
  csvFile : Option String
  jsonFile : Option JMap
deriving DecidableEq, Repr

/-- The in-memory state of a `ContactManager`. -/
structure ContactManager where
  contacts : List (List String)
  metadata : JMap
deriving DecidableEq, Repr

/-- The exception messages raised by `add_contact` (both are `ValueError`s,
distinguished by their message). -/
def invalidEmailMsg : String := "Invalid email format."

/-- The message of the `ValueError` raised for an invalid phone number. -/
def invalidPhoneMsg : String := "Invalid phone number format."

/-- `ContactManager.__init__`: load both resources into memory; nothing is
written. -/
def cmInit (fs : FSt) : FSt × ContactManager :=
  (fs, ⟨read_csv fs.csvFile, read_json fs.jsonFile⟩)

/-- `ContactManager.add_contact`: validate the email, then the phone, then
append `[name, email, phone]`; a failed validation raises and leaves the
state untouched.  The function touches no file, which is visible in its
type. -/
def add_contact (cm : ContactManager) (name email phone : String) :
    Except String ContactManager :=
  if extract_emails email = [] then .error invalidEmailMsg
  else if validate_phone_number phone = false then .error invalidPhoneMsg
  else .ok { cm with contacts := cm.contacts ++ [[name, email, phone]] }

/-- The Contact Manager operations. -/
inductive CMOp where
  | addC (name email phone : String)
  | saveC
  | saveM (k : String) (v : JVal)

/-- One Contact Manager operation on the pair (resources, in-memory state).
A raising `add_contact` propagates and changes nothing; `save_contacts`
overwrites the tabular resource with the rendered collection;
`save_metadata` updates the mapping in place and overwrites the structured
resource with the entire mapping. -/
def cmStep (w : FSt × ContactManager) : CMOp → FSt × ContactManager
  | .addC n e p =>
    match add_contact w.2 n e p with
    | .ok cm' => (w.1, cm')
    | .error _ => w
  | .saveC => ({ w.1 with csvFile := some (write_csv_content w.2.contacts) }, w.2)
  | .saveM k v =>
    let m' := dictSet w.2.metadata k v
    ({ w.1 with jsonFile := some m' }, { w.2 with metadata := m' })

/-- A sequence of operations after construction. -/
def cmRun (w : FSt × ContactManager) : List CMOp → FSt × ContactManager
  | [] => w
  | op :: ops => cmRun (cmStep w op) ops

/-! ## Helper lemmas -/

theorem optAny_true {p : List Char → Bool} {o : Option (List Char)} :
    Option.any p o = true ↔ ∃ r, o = some r ∧ p r = true := by
  cases o <;> simp [Option.any]

theorem lit_some {ch : Char} {l r : List Char} :
    lit ch l = some r ↔ l = ch :: r := by
  cases l with
  | nil => simp [lit]
  | cons c t =>
    by_cases h : c = ch
    · subst h; simp [lit]
    · simp [lit, h, Ne.symm h]

theorem digitsN3_some {l r : List Char} :
    digitsN 3 l = some r ↔
      ∃ a b c, l = a :: b :: c :: r ∧ pyDigit a = true ∧ pyDigit b = true ∧
        pyDigit c = true := by
  constructor
  · intro h
    rcases l with _ | ⟨a, _ | ⟨b, _ | ⟨c, t⟩⟩⟩
    · simp [digitsN] at h
    · simp [digitsN] at h
    · simp [digitsN] at h
    · by_cases ha : pyDigit a = true
      · by_cases hb : pyDigit b = true
        · by_cases hc : pyDigit c = true
          · simp [digitsN, ha, hb, hc] at h
            exact ⟨a, b, c, by rw [h], ha, hb, hc⟩
          · simp [digitsN, ha, hb, hc] at h
        · simp [digitsN, ha, hb] at h
      · simp [digitsN, ha] at h
  · rintro ⟨a, b, c, rfl, ha, hb, hc⟩
    simp [digitsN, ha, hb, hc]

theorem digitsN4_some {l r : List Char} :
    digitsN 4 l = some r ↔
      ∃ a b c d, l = a :: b :: c :: d :: r ∧ pyDigit a = true ∧ pyDigit b = true ∧
        pyDigit c = true ∧ pyDigit d = true := by
  constructor
  · intro h
    rcases l with _ | ⟨a, _ | ⟨b, _ | ⟨c, _ | ⟨d, t⟩⟩⟩⟩
    · simp [digitsN] at h
    · simp [digitsN] at h
    · simp [digitsN] at h
    · simp [digitsN] at h
    · by_cases ha : pyDigit a = true
      · by_cases hb : pyDigit b = true
        · by_cases hc : pyDigit c = true
          · by_cases hd : pyDigit d = true
            · simp [digitsN, ha, hb, hc, hd] at h
              exact ⟨a, b, c, d, by rw [h], ha, hb, hc, hd⟩
            · simp [digitsN, ha, hb, hc, hd] at h
          · simp [digitsN, ha, hb, hc] at h
        · simp [digitsN, ha, hb] at h
      · simp [digitsN, ha] at h
  · rintro ⟨a, b, c, d, rfl, ha, hb, hc, hd⟩
    simp [digitsN, ha, hb, hc, hd]

theorem spaceOne_some {l r : List Char} :
    spaceOne l = some r ↔ ∃ w, pySpace w = true ∧ l = w :: r := by
  cases l with
  | nil => simp [spaceOne]
  | cons c t =>
    by_cases h : pySpace c = true
    · simp [spaceOne, h]
      constructor
      · intro h'; exact ⟨c, h, rfl, h'⟩
      · rintro ⟨w, hw, rfl, h'⟩; exact h'
    · simp [spaceOne, h]
      rintro w hw rfl h'
      exact absurd hw h

theorem matchEnd_false {t : List Char} (h1 : t ≠ []) (h2 : t ≠ ['\n']) :
    matchEnd t = false := by
  rcases t with _ | ⟨c, _ | ⟨d, u⟩⟩
  · exact absurd rfl h1
  · by_cases hc : c = '\n'
    · subst hc; exact absurd rfl h2
    · simp [matchEnd, hc]
  · rfl

theorem digit_not_space {c : Char} (h : pyDigit c = true) : pySpace c = false := by
  simp [pyDigit] at h
  simp [pySpace]
  omega

theorem space_not_digit {c : Char} (h : pySpace c = true) : pyDigit c = false := by
  simp [pySpace] at h
  simp [pyDigit]
  omega

theorem digit_ne_lparen {c : Char} (h : pyDigit c = true) : (c = '(') = False :=
  eq_false (fun hc => by subst hc; exact absurd h (by decide))

theorem digit_ne_dash {c : Char} (h : pyDigit c = true) : (c = '-') = False :=
  eq_false (fun hc => by subst hc; exact absurd h (by decide))

theorem string_mk_data (l : List Char) : (String.mk l).data = l := rfl

theorem shapeBare_exact {l : List Char} (hsh : shapeBare listDone l = true) :
    ∃ d e f g1 g2 g3 g4, l = [d, e, f, '-', g1, g2, g3, g4] ∧
      pyDigit d = true ∧ pyDigit e = true ∧ pyDigit f = true ∧
      pyDigit g1 = true ∧ pyDigit g2 = true ∧ pyDigit g3 = true ∧
      pyDigit g4 = true := by
  unfold shapeBare at hsh
  rw [optAny_true] at hsh
  obtain ⟨r, hch, hr⟩ := hsh
  have hr' : r = [] := by simpa [listDone, List.isEmpty_iff] using hr
  subst hr'
  rw [Option.bind_eq_some] at hch
  obtain ⟨r2, h2, h4⟩ := hch
  rw [Option.bind_eq_some] at h2
  obtain ⟨r1, h1, h12⟩ := h2
  rw [digitsN3_some] at h1
  rw [lit_some] at h12
  rw [digitsN4_some] at h4
  obtain ⟨d, e, f, rfl, hd, he, hf⟩ := h1
  obtain ⟨g1, g2, g3, g4, hr2, hg1, hg2, hg3, hg4⟩ := h4
  subst h12
  subst hr2
  exact ⟨d, e, f, g1, g2, g3, g4, rfl, hd, he, hf, hg1, hg2, hg3, hg4⟩

theorem shapeHyph_exact {l : List Char} (hsh : shapeHyph listDone l = true) :
    ∃ q1 q2 q3 d e f g1 g2 g3 g4,
      l = [q1, q2, q3, '-', d, e, f, '-', g1, g2, g3, g4] ∧
      pyDigit q1 = true ∧ pyDigit q2 = true ∧ pyDigit q3 = true ∧
      pyDigit d = true ∧ pyDigit e = true ∧ pyDigit f = true ∧
      pyDigit g1 = true ∧ pyDigit g2 = true ∧ pyDigit g3 = true ∧
      pyDigit g4 = true := by
  unfold shapeHyph at hsh
  rw [optAny_true] at hsh
  obtain ⟨r, hch, hr⟩ := hsh
  rw [Option.bind_eq_some] at hch
  obtain ⟨r1, h1, h12⟩ := hch
  rw [digitsN3_some] at h1
  rw [lit_some] at h12
  obtain ⟨q1, q2, q3, rfl, hq1, hq2, hq3⟩ := h1
  obtain ⟨d, e, f, g1, g2, g3, g4, hr', hd, he, hf, hg1, hg2, hg3, hg4⟩ :=
    shapeBare_exact hr
  subst h12
  subst hr'
  exact ⟨q1, q2, q3, d, e, f, g1, g2, g3, g4, rfl,
    hq1, hq2, hq3, hd, he, hf, hg1, hg2, hg3, hg4⟩

theorem shapeParen_exact {l : List Char} (hsh : shapeParen listDone l = true) :
    ∃ q1 q2 q3 d e f g1 g2 g3 g4,
      l = ['(', q1, q2, q3, ')', d, e, f, '-', g1, g2, g3, g4] ∧
      pyDigit q1 = true ∧ pyDigit q2 = true ∧ pyDigit q3 = true ∧
      pyDigit d = true ∧ pyDigit e = true ∧ pyDigit f = true ∧
      pyDigit g1 = true ∧ pyDigit g2 = true ∧ pyDigit g3 = true ∧
      pyDigit g4 = true := by
  unfold shapeParen at hsh
  rw [optAny_true] at hsh
  obtain ⟨r, hch, hr⟩ := hsh
  rw [Option.bind_eq_some] at hch
  obtain ⟨r2, h2, h3⟩ := hch
  rw [Option.bind_eq_some] at h2
  obtain ⟨r1, h1, h12⟩ := h2
  rw [lit_some] at h1
  rw [digitsN3_some] at h12
  rw [lit_some] at h3
  obtain ⟨q1, q2, q3, hr1, hq1, hq2, hq3⟩ := h12
  obtain ⟨d, e, f, g1, g2, g3, g4, hr', hd, he, hf, hg1, hg2, hg3, hg4⟩ :=
    shapeBare_exact hr
  subst h1; subst hr1; subst h3; subst hr'
  exact ⟨q1, q2, q3, d, e, f, g1, g2, g3, g4, rfl,
    hq1, hq2, hq3, hd, he, hf, hg1, hg2, hg3, hg4⟩

theorem shapeParenGap_exact {l : List Char}
    (hsh : shapeParenGap spaceOne listDone l = true) :
    ∃ q1 q2 q3 w d e f g1 g2 g3 g4,
      l = ['(', q1, q2, q3, ')', w, d, e, f, '-', g1, g2, g3, g4] ∧
      pySpace w = true ∧
      pyDigit q1 = true ∧ pyDigit q2 = true ∧ pyDigit q3 = true ∧
      pyDigit d = true ∧ pyDigit e = true ∧ pyDigit f = true ∧
      pyDigit g1 = true ∧ pyDigit g2 = true ∧ pyDigit g3 = true ∧
      pyDigit g4 = true := by
  unfold shapeParenGap at hsh
  rw [optAny_true] at hsh
  obtain ⟨r, hch, hr⟩ := hsh
  rw [optAny_true] at hr
  obtain ⟨r', hsp, hbare⟩ := hr
  rw [spaceOne_some] at hsp
  obtain ⟨w, hw, hrw⟩ := hsp
  rw [Option.bind_eq_some] at hch
  obtain ⟨r2, h2, h3⟩ := hch
  rw [Option.bind_eq_some] at h2
  obtain ⟨r1, h1, h12⟩ := h2
  rw [lit_some] at h1
  rw [digitsN3_some] at h12
  rw [lit_some] at h3
  obtain ⟨q1, q2, q3, hr1, hq1, hq2, hq3⟩ := h12
  obtain ⟨d, e, f, g1, g2, g3, g4, hr', hd, he, hf, hg1, hg2, hg3, hg4⟩ :=
    shapeBare_exact hbare
  subst h1; subst hr1; subst h3; subst hrw; subst hr'
  exact ⟨q1, q2, q3, w, d, e, f, g1, g2, g3, g4, rfl, hw,
    hq1, hq2, hq3, hd, he, hf, hg1, hg2, hg3, hg4⟩

theorem shapeBare_matchEnd_eq : shapeBare matchEnd = bodyTail := rfl

theorem validate_eq_phoneShapeFull (s : String) :
    validate_phone_number s = phoneShapeFull s := by
  unfold validate_phone_number phoneShapeFull altParen shapeParenGap shapeParen
    shapeHyph altDash
  rw [shapeBare_matchEnd_eq]
  cases hp : ((lit '(' s.data).bind (digitsN 3)).bind (lit ')') with
  | none => simp [Option.any]
  | some r =>
    cases hb : bodyTail r <;>
      cases hs : Option.any bodyTail (spaceOne r) <;>
        simp [Option.any, hb, hs]

/-! ## Claims C1 and C2 -/

/-- C1, counterexample.  The claim says `validatePhone` tolerates trailing
garbage after a valid prefix.  It does not: `"123-4567"` is a valid phone
string (bare shape), yet with the trailing garbage character `x` the
validator rejects — the source pattern ends in `$`, so `re.match` must
reach the end of the string. -/
theorem c1_counterexample :
    validate_phone_number "123-4567" = true ∧
    phoneExact "123-4567".data = true ∧
    validate_phone_number "123-4567x" = false := by
  refine ⟨by decide, by decide, by decide⟩

/-- C1, amended: `validatePhone` anchors at both ends of the string.  If a
string consists of a valid phone-number shape followed by any nonempty
trailing garbage — other than the single trailing newline that the `$`
anchor itself tolerates — the validator returns false. -/
theorem c1_anchored_both_ends (l t : List Char) (hl : phoneExact l = true)
    (ht1 : t ≠ []) (ht2 : t ≠ ['\n']) :
    validate_phone_number (String.mk (l ++ t)) = false := by
  have hme : matchEnd t = false := matchEnd_false ht1 ht2
  have hlp : pyDigit '(' = false := by decide
  unfold phoneExact at hl
  simp only [Bool.or_eq_true] at hl
  rcases hl with ((hg | hp) | hh) | hb
  · obtain ⟨q1, q2, q3, w, d, e, f, g1, g2, g3, g4, rfl, hw,
      hq1, hq2, hq3, hd, he, hf, hg1, hg2, hg3, hg4⟩ := shapeParenGap_exact hg
    simp [validate_phone_number, altParen, altDash, bodyTail, lit, digitsN,
      spaceOne, string_mk_data, Option.any, Option.bind, hq1, hq2, hq3, hd, he,
      hf, hg1, hg2, hg3, hg4, hw, space_not_digit, hme, hlp]
  · obtain ⟨q1, q2, q3, d, e, f, g1, g2, g3, g4, rfl,
      hq1, hq2, hq3, hd, he, hf, hg1, hg2, hg3, hg4⟩ := shapeParen_exact hp
    simp [validate_phone_number, altParen, altDash, bodyTail, lit, digitsN,
      spaceOne, string_mk_data, Option.any, Option.bind, hq1, hq2, hq3, hd, he,
      hf, hg1, hg2, hg3, hg4, digit_not_space, hme, hlp]
  · obtain ⟨q1, q2, q3, d, e, f, g1, g2, g3, g4, rfl,
      hq1, hq2, hq3, hd, he, hf, hg1, hg2, hg3, hg4⟩ := shapeHyph_exact hh
    simp [validate_phone_number, altParen, altDash, bodyTail, lit, digitsN,
      spaceOne, string_mk_data, Option.any, Option.bind, hq1, hq2, hq3, hd, he,
      hf, hg1, hg2, hg3, hg4, digit_ne_lparen, digit_ne_dash, hme,
      (by decide : pyDigit '-' = false)]
  · obtain ⟨d, e, f, g1, g2, g3, g4, rfl,
      hd, he, hf, hg1, hg2, hg3, hg4⟩ := shapeBare_exact hb
    simp [validate_phone_number, altParen, altDash, bodyTail, lit, digitsN,
      spaceOne, string_mk_data, Option.any, Option.bind, hd, he,
      hf, hg1, hg2, hg3, hg4, digit_ne_lparen, digit_ne_dash, hme]

/-- Witness for `c1_anchored_both_ends` at the concrete inputs
`"123-4567"` and the garbage suffix `"x"`. -/
theorem c1_anchored_both_ends_witness :
    phoneExact "123-4567".data = true ∧
    validate_phone_number (String.mk ("123-4567".data ++ ['x'])) = false :=
  ⟨by decide,
   c1_anchored_both_ends "123-4567".data ['x'] (by decide) (by decide) (by decide)⟩

/-- C2, counterexample.  The claim's four shapes allow only one literal
space after the parenthesized area code and nothing after the number, but
the code's `\s?` accepts a tab there, and the code's `$` accepts one
trailing newline — both inputs are accepted by `validatePhone` while
falling outside the claim's shapes. -/
theorem c2_counterexample :
    validate_phone_number "(123)\t456-7890" = true ∧
    phoneShapeStrict "(123)\t456-7890" = false ∧
    validate_phone_number "123-4567\n" = true ∧
    phoneShapeStrict "123-4567\n" = false := by
  refine ⟨by decide, by decide, by decide, by decide⟩

/-- C2, amended: `validatePhone(s)` is true exactly when `s` matches one of
the four shapes `(DDD)<w>DDD-DDDD`, `(DDD)DDD-DDDD`, `DDD-DDD-DDDD`, bare
`DDD-DDDD` — with the optional separator `<w>` being any single whitespace
character rather than only a space, and with at most one trailing newline
tolerated after the number.  The three evaluation examples of the claim
hold as stated. -/
theorem c2_phone_shapes :
    (∀ s : String, validate_phone_number s = phoneShapeFull s) ∧
    validate_phone_number "(123) 456-7890" = true ∧
    validate_phone_number "123-456-7890" = true ∧
    validate_phone_number "1234567890" = false :=
  ⟨validate_eq_phoneShapeFull, by decide, by decide, by decide⟩
theorem runLen_drop_head {p : Char → Bool} {l : List Char} {j : Nat}
    (h : j < runLen p l) : ∃ c r, l.drop j = c :: r ∧ p c = true := by
  induction l generalizing j with
  | nil => simp [runLen] at h
  | cons c l ih =>
    by_cases hp : p c = true
    · cases j with
      | zero => exact ⟨c, l, rfl, hp⟩
      | succ j' =>
        simp [runLen, hp] at h
        exact ih (by omega)
    · simp [runLen, hp] at h

theorem locSearch_none_lt {l : List Char} :
    ∀ j, j < runLen isLocalChar l → locSearch l j = none := by
  intro j
  induction j with
  | zero => intro _; rfl
  | succ j' ih =>
    intro h
    obtain ⟨c, r, hd, hc⟩ := runLen_drop_head h
    have hc' : ¬(c = '@') := fun he => by subst he; exact absurd hc (by decide)
    simp only [locSearch]
    rw [hd]
    simp only [hc', if_false]
    exact ih (by omega)

theorem grpSearch_none_lt {l : List Char} :
    ∀ j, j < runLen isGroupChar l → grpSearch l j = none := by
  intro j
  induction j with
  | zero => intro _; rfl
  | succ j' ih =>
    intro h
    obtain ⟨c, r, hd, hc⟩ := runLen_drop_head h
    have hc' : ¬(c = '.') := fun he => by subst he; exact absurd hc (by decide)
    simp only [grpSearch]
    rw [hd]
    simp only [hc', if_false]
    exact ih (by omega)

theorem emailMatch_eq_spec (l : List Char) : emailMatch l = specTryEmail l := by
  unfold emailMatch specTryEmail
  cases hm : runLen isLocalChar l with
  | zero => simp [locSearch]
  | succ j =>
    have hjlt : j < runLen isLocalChar l := by omega
    have hnone : locSearch l j = none := locSearch_none_lt j hjlt
    simp only [Nat.succ_ne_zero, if_false]
    cases hd : l.drop (j + 1) with
    | nil => simp only [locSearch]; rw [hd]; simp [hnone]
    | cons c r =>
      by_cases hc : c = '@'
      · subst hc
        simp only [locSearch]
        rw [hd]
        simp only [if_pos rfl]
        cases hb : runLen isGroupChar r with
        | zero => simp [domainMatch, hb, grpSearch, hnone]
        | succ b' =>
          have hblt : b' < runLen isGroupChar r := by omega
          have hgnone : grpSearch r b' = none := grpSearch_none_lt b' hblt
          unfold domainMatch
          rw [hb]
          simp only [Nat.succ_ne_zero, if_false]
          cases hd2 : r.drop (b' + 1) with
          | nil => simp only [grpSearch]; rw [hd2]; simp [hgnone, hnone]
          | cons c2 r2 =>
            by_cases hc2 : c2 = '.'
            · subst hc2
              simp only [grpSearch]
              rw [hd2]
              simp only [if_pos rfl]
              cases r2 with
              | nil => simp [tryTail, runLen, hgnone, hnone]
              | cons c3 r3 =>
                by_cases ht : isTailChar c3 = true
                · simp [tryTail, runLen, ht]
                · simp [tryTail, runLen, ht, hgnone, hnone]
            · simp only [grpSearch]; rw [hd2]; simp [hc2, hgnone, hnone]
      · simp only [locSearch]; rw [hd]; simp [hc, hnone]

theorem findAux_eq_spec : ∀ fuel l, findAux fuel l = specScanAux fuel l := by
  intro fuel
  induction fuel with
  | zero => intro _; rfl
  | succ f ih =>
    intro l
    simp only [findAux, specScanAux, emailMatch_eq_spec]
    cases h : specTryEmail l with
    | some n => simp [ih]
    | none => cases l <;> simp [ih]

theorem extract_emails_eq_spec (s : String) : extract_emails s = specEmailScan s := by
  unfold extract_emails specEmailScan
  rw [findAux_eq_spec]

/-! ## Claim C3 -/

/-- C3, counterexample.  The claim's domain grammar admits a single
dot-free group, so `"a@b"` matches its shape (`emailShapeClaimed`), and the
claim then demands `extractEmails("a@b") = ["a@b"]`.  The source pattern
`[a-zA-Z0-9_.+-]+@[a-zA-Z0-9-]+\.[a-zA-Z0-9-.]+` contains a mandatory
literal dot, so the code finds no match at all. -/
theorem c3_counterexample :
    emailShapeClaimed "a@b".data = true ∧ extract_emails "a@b" = [] := by
  refine ⟨by decide, by decide⟩

/-- C3, amended: `extractEmails(text)` is exactly the left-to-right scan of
the non-overlapping maximal substrings of the shape `local-part@domain`
where the domain is one nonempty group of `{letters, digits, -}` followed
by a mandatory dot and then one or more characters of
`{letters, digits, -, .}` (a dot IS required in the domain; a single
dot-free group is not matched).  The claim's example evaluates as stated,
and the scan — hence `extractEmails` — returns the empty sequence when no
substring matches. -/
theorem c3_email_scan :
    (∀ s : String, extract_emails s = specEmailScan s) ∧
    extract_emails "Contact me at mol7@kent.ac.uk" = ["mol7@kent.ac.uk"] :=
  ⟨extract_emails_eq_spec, by decide⟩

/-! ## Record Store round-trip -/
theorem string_eta (s : String) : String.mk s.data = s := rfl

theorem csv_plain_of_noQuote {single : Bool} {f : String}
    (h : fieldNeedsQuote single f = false) :
    ∀ c ∈ f.data, ¬(c = ',') ∧ ¬(c = '"') ∧ ¬(c = '\r') ∧ ¬(c = '\n') := by
  intro c hc
  simp [fieldNeedsQuote] at h
  have h' := h.1 c hc
  tauto

theorem csv_nonempty_of_noQuote {f : String}
    (h : fieldNeedsQuote true f = false) : f.data ≠ [] := by
  simp [fieldNeedsQuote] at h
  exact h.2

theorem csvRun_sr_cr (r : List Char) :
    csvRun .sr [] [] ('\r' :: r) = [] :: csvRun .crlf [] [] r := by
  simp [csvRun]

theorem csvRun_sr_quote (r : List Char) :
    csvRun .sr [] [] ('"' :: r) = csvRun .quo [] [] r := by
  simp [csvRun]

theorem csvRun_sr_comma (r : List Char) :
    csvRun .sr [] [] (',' :: r) = csvRun .sf [] [""] r := by
  simp [csvRun]

theorem csvRun_sr_plain {c : Char} (h1 : ¬(c = ',')) (h2 : ¬(c = '"'))
    (h3 : ¬(c = '\r')) (h4 : ¬(c = '\n')) (r : List Char) :
    csvRun .sr [] [] (c :: r) = csvRun .fld [c] [] r := by
  simp [csvRun, h1, h2, h3, h4]

theorem csvRun_crlf_lf (r : List Char) :
    csvRun .crlf [] [] ('\n' :: r) = csvRun .sr [] [] r := by
  simp [csvRun]

theorem csvRun_sf_cr (row : List String) (r : List Char) :
    csvRun .sf [] row ('\r' :: r) = (row ++ [""]) :: csvRun .crlf [] [] r := by
  simp [csvRun]

theorem csvRun_sf_quote (row : List String) (r : List Char) :
    csvRun .sf [] row ('"' :: r) = csvRun .quo [] row r := by
  simp [csvRun]

theorem csvRun_sf_comma (row : List String) (r : List Char) :
    csvRun .sf [] row (',' :: r) = csvRun .sf [] (row ++ [""]) r := by
  simp [csvRun]

theorem csvRun_sf_plain {c : Char} (h1 : ¬(c = ',')) (h2 : ¬(c = '"'))
    (h3 : ¬(c = '\r')) (h4 : ¬(c = '\n')) (row : List String) (r : List Char) :
    csvRun .sf [] row (c :: r) = csvRun .fld [c] row r := by
  simp [csvRun, h1, h2, h3, h4]

theorem csvRun_fld_cr (cur : List Char) (row : List String) (r : List Char) :
    csvRun .fld cur row ('\r' :: r) =
      (row ++ [String.mk cur]) :: csvRun .crlf [] [] r := by
  simp [csvRun]

theorem csvRun_fld_comma (cur : List Char) (row : List String) (r : List Char) :
    csvRun .fld cur row (',' :: r) =
      csvRun .sf [] (row ++ [String.mk cur]) r := by
  simp [csvRun]

theorem csvRun_fld_plain {c : Char} (h1 : ¬(c = ',')) (h3 : ¬(c = '\r'))
    (h4 : ¬(c = '\n')) (cur : List Char) (row : List String) (r : List Char) :
    csvRun .fld cur row (c :: r) = csvRun .fld (cur ++ [c]) row r := by
  simp [csvRun, h1, h3, h4]

theorem csvRun_quo_quote (cur : List Char) (row : List String) (r : List Char) :
    csvRun .quo cur row ('"' :: r) = csvRun .aqu cur row r := by
  simp [csvRun]

theorem csvRun_quo_other {c : Char} (h : ¬(c = '"')) (cur : List Char)
    (row : List String) (r : List Char) :
    csvRun .quo cur row (c :: r) = csvRun .quo (cur ++ [c]) row r := by
  simp [csvRun, h]

theorem csvRun_aqu_quote (cur : List Char) (row : List String) (r : List Char) :
    csvRun .aqu cur row ('"' :: r) = csvRun .quo (cur ++ ['"']) row r := by
  simp [csvRun]

theorem csvRun_aqu_comma (cur : List Char) (row : List String) (r : List Char) :
    csvRun .aqu cur row (',' :: r) =
      csvRun .sf [] (row ++ [String.mk cur]) r := by
  simp [csvRun]

theorem csvRun_aqu_cr (cur : List Char) (row : List String) (r : List Char) :
    csvRun .aqu cur row ('\r' :: r) =
      (row ++ [String.mk cur]) :: csvRun .crlf [] [] r := by
  simp [csvRun]

theorem csvRun_plain (d : List Char)
    (hpl : ∀ c ∈ d, ¬(c = ',') ∧ ¬(c = '"') ∧ ¬(c = '\r') ∧ ¬(c = '\n')) :
    ∀ cur row rest,
      csvRun .fld cur row (d ++ rest) = csvRun .fld (cur ++ d) row rest := by
  induction d with
  | nil => intro cur row rest; simp
  | cons c d ih =>
    intro cur row rest
    obtain ⟨h1, h2, h3, h4⟩ := hpl c (List.mem_cons_self c d)
    have ih' := ih (fun c' hc' => hpl c' (List.mem_cons_of_mem c hc'))
    rw [List.cons_append, csvRun_fld_plain h1 h3 h4, ih' (cur ++ [c]) row rest]
    simp

theorem csvRun_quoted (d : List Char) :
    ∀ cur row rest,
      csvRun .quo cur row (escQuotes d ++ ('"' :: rest)) =
        csvRun .aqu (cur ++ d) row rest := by
  induction d with
  | nil => intro cur row rest; simp [escQuotes, csvRun_quo_quote]
  | cons c d ih =>
    intro cur row rest
    by_cases hc : c = '"'
    · subst hc
      rw [show escQuotes ('"' :: d) = '"' :: ('"' :: escQuotes d) from by
            simp [escQuotes]]
      rw [List.cons_append, List.cons_append, csvRun_quo_quote,
        csvRun_aqu_quote, ih (cur ++ ['"']) row rest]
      simp
    · rw [show escQuotes (c :: d) = c :: escQuotes d from by simp [escQuotes, hc]]
      rw [List.cons_append, csvRun_quo_other hc, ih (cur ++ [c]) row rest]
      simp
theorem csvField_comma (f : String) (row : List String) (rest : List Char) :
    csvRun .sf [] row (renderField false f ++ (',' :: rest)) =
      csvRun .sf [] (row ++ [f]) rest := by
  by_cases hq : fieldNeedsQuote false f = true
  · rw [show renderField false f = '"' :: (escQuotes f.data ++ ['"']) from by
        simp [renderField, hq]]
    rw [List.cons_append, csvRun_sf_quote]
    rw [show (escQuotes f.data ++ ['"']) ++ (',' :: rest) =
        escQuotes f.data ++ ('"' :: (',' :: rest)) from by simp]
    rw [csvRun_quoted f.data [] row (',' :: rest), csvRun_aqu_comma]
    simp [string_eta]
  · have hq' : fieldNeedsQuote false f = false := by simpa using hq
    rw [show renderField false f = f.data from by simp [renderField, hq']]
    have hpl := csv_plain_of_noQuote hq'
    cases hd : f.data with
    | nil =>
      rw [List.nil_append, csvRun_sf_comma]
      rw [show f = "" from by rw [← string_eta f, hd]]
    | cons c d =>
      obtain ⟨h1, h2, h3, h4⟩ :=
        hpl c (by rw [hd]; exact List.mem_cons_self c d)
      have hpl' : ∀ c' ∈ d, ¬(c' = ',') ∧ ¬(c' = '"') ∧ ¬(c' = '\r') ∧
          ¬(c' = '\n') :=
        fun c' hc' => hpl c' (by rw [hd]; exact List.mem_cons_of_mem c hc')
      rw [List.cons_append, csvRun_sf_plain h1 h2 h3 h4,
        csvRun_plain d hpl' [c] row (',' :: rest), csvRun_fld_comma]
      rw [show ([c] ++ d : List Char) = f.data from by rw [hd]; rfl, string_eta]

theorem csvField_crlf (f : String) (row : List String) (rest : List Char) :
    csvRun .sf [] row (renderField false f ++ ('\r' :: '\n' :: rest)) =
      (row ++ [f]) :: csvRun .sr [] [] rest := by
  by_cases hq : fieldNeedsQuote false f = true
  · rw [show renderField false f = '"' :: (escQuotes f.data ++ ['"']) from by
        simp [renderField, hq]]
    rw [List.cons_append, csvRun_sf_quote]
    rw [show (escQuotes f.data ++ ['"']) ++ ('\r' :: '\n' :: rest) =
        escQuotes f.data ++ ('"' :: ('\r' :: '\n' :: rest)) from by simp]
    rw [csvRun_quoted f.data [] row ('\r' :: '\n' :: rest), csvRun_aqu_cr,
      csvRun_crlf_lf]
    simp [string_eta]
  · have hq' : fieldNeedsQuote false f = false := by simpa using hq
    rw [show renderField false f = f.data from by simp [renderField, hq']]
    have hpl := csv_plain_of_noQuote hq'
    cases hd : f.data with
    | nil =>
      rw [List.nil_append, csvRun_sf_cr, csvRun_crlf_lf]
      rw [show f = "" from by rw [← string_eta f, hd]]
    | cons c d =>
      obtain ⟨h1, h2, h3, h4⟩ :=
        hpl c (by rw [hd]; exact List.mem_cons_self c d)
      have hpl' : ∀ c' ∈ d, ¬(c' = ',') ∧ ¬(c' = '"') ∧ ¬(c' = '\r') ∧
          ¬(c' = '\n') :=
        fun c' hc' => hpl c' (by rw [hd]; exact List.mem_cons_of_mem c hc')
      rw [List.cons_append, csvRun_sf_plain h1 h2 h3 h4,
        csvRun_plain d hpl' [c] row ('\r' :: '\n' :: rest), csvRun_fld_cr,
        csvRun_crlf_lf]
      rw [show ([c] ++ d : List Char) = f.data from by rw [hd]; rfl, string_eta]

theorem csvFirstField_comma (f : String) (rest : List Char) :
    csvRun .sr [] [] (renderField false f ++ (',' :: rest)) =
      csvRun .sf [] [f] rest := by
  by_cases hq : fieldNeedsQuote false f = true
  · rw [show renderField false f = '"' :: (escQuotes f.data ++ ['"']) from by
        simp [renderField, hq]]
    rw [List.cons_append, csvRun_sr_quote]
    rw [show (escQuotes f.data ++ ['"']) ++ (',' :: rest) =
        escQuotes f.data ++ ('"' :: (',' :: rest)) from by simp]
    rw [csvRun_quoted f.data [] [] (',' :: rest), csvRun_aqu_comma]
    simp [string_eta]
  · have hq' : fieldNeedsQuote false f = false := by simpa using hq
    rw [show renderField false f = f.data from by simp [renderField, hq']]
    have hpl := csv_plain_of_noQuote hq'
    cases hd : f.data with
    | nil =>
      rw [List.nil_append, csvRun_sr_comma]
      rw [show f = "" from by rw [← string_eta f, hd]]
    | cons c d =>
      obtain ⟨h1, h2, h3, h4⟩ :=
        hpl c (by rw [hd]; exact List.mem_cons_self c d)
      have hpl' : ∀ c' ∈ d, ¬(c' = ',') ∧ ¬(c' = '"') ∧ ¬(c' = '\r') ∧
          ¬(c' = '\n') :=
        fun c' hc' => hpl c' (by rw [hd]; exact List.mem_cons_of_mem c hc')
      rw [List.cons_append, csvRun_sr_plain h1 h2 h3 h4,
        csvRun_plain d hpl' [c] [] (',' :: rest), csvRun_fld_comma]
      rw [show ([c] ++ d : List Char) = f.data from by rw [hd]; rfl, string_eta]
      rfl

theorem csvSingleField_crlf (f : String) (rest : List Char) :
    csvRun .sr [] [] (renderField true f ++ ('\r' :: '\n' :: rest)) =
      [f] :: csvRun .sr [] [] rest := by
  by_cases hq : fieldNeedsQuote true f = true
  · rw [show renderField true f = '"' :: (escQuotes f.data ++ ['"']) from by
        simp [renderField, hq]]
    rw [List.cons_append, csvRun_sr_quote]
    rw [show (escQuotes f.data ++ ['"']) ++ ('\r' :: '\n' :: rest) =
        escQuotes f.data ++ ('"' :: ('\r' :: '\n' :: rest)) from by simp]
    rw [csvRun_quoted f.data [] [] ('\r' :: '\n' :: rest), csvRun_aqu_cr,
      csvRun_crlf_lf]
    simp [string_eta]
  · have hq' : fieldNeedsQuote true f = false := by simpa using hq
    rw [show renderField true f = f.data from by simp [renderField, hq']]
    have hpl := csv_plain_of_noQuote hq'
    have hne := csv_nonempty_of_noQuote hq'
    cases hd : f.data with
    | nil => exact absurd hd hne
    | cons c d =>
      obtain ⟨h1, h2, h3, h4⟩ :=
        hpl c (by rw [hd]; exact List.mem_cons_self c d)
      have hpl' : ∀ c' ∈ d, ¬(c' = ',') ∧ ¬(c' = '"') ∧ ¬(c' = '\r') ∧
          ¬(c' = '\n') :=
        fun c' hc' => hpl c' (by rw [hd]; exact List.mem_cons_of_mem c hc')
      rw [List.cons_append, csvRun_sr_plain h1 h2 h3 h4,
        csvRun_plain d hpl' [c] [] ('\r' :: '\n' :: rest), csvRun_fld_cr,
        csvRun_crlf_lf]
      rw [show ([c] ++ d : List Char) = f.data from by rw [hd]; rfl, string_eta]
      rfl

theorem csvFields_rest (fs : List String) :
    ∀ (g : String) (row : List String) (rest : List Char),
      csvRun .sf [] row
          (renderField false g ++ (renderRest fs ++ ('\r' :: '\n' :: rest))) =
        (row ++ (g :: fs)) :: csvRun .sr [] [] rest := by
  induction fs with
  | nil =>
    intro g row rest
    rw [show renderRest [] = ([] : List Char) from rfl, List.nil_append,
      csvField_crlf]
  | cons f fs ih =>
    intro g row rest
    rw [show renderRest (f :: fs) = ',' :: (renderField false f ++ renderRest fs)
        from rfl]
    rw [show (',' :: (renderField false f ++ renderRest fs)) ++
          ('\r' :: '\n' :: rest) =
        ',' :: (renderField false f ++ (renderRest fs ++ ('\r' :: '\n' :: rest)))
        from by simp]
    rw [csvField_comma, ih f (row ++ [g]) rest]
    simp

theorem csvRow_run (row : List String) (rest : List Char) :
    csvRun .sr [] [] (renderRow row ++ rest) = row :: csvRun .sr [] [] rest := by
  cases row with
  | nil =>
    rw [show renderRow [] = ['\r', '\n'] from rfl]
    rw [show (['\r', '\n'] : List Char) ++ rest = '\r' :: ('\n' :: rest) from rfl]
    rw [csvRun_sr_cr, csvRun_crlf_lf]
  | cons f fs =>
    cases fs with
    | nil =>
      rw [show renderRow [f] = renderField true f ++ ([] ++ ['\r', '\n'])
          from rfl]
      rw [show (renderField true f ++ ([] ++ ['\r', '\n'])) ++ rest =
          renderField true f ++ ('\r' :: '\n' :: rest) from by simp]
      rw [csvSingleField_crlf]
    | cons g fs' =>
      rw [show renderRow (f :: g :: fs') =
          renderField false f ++ (renderRest (g :: fs') ++ ['\r', '\n'])
          from rfl]
      rw [show renderRest (g :: fs') =
          ',' :: (renderField false g ++ renderRest fs') from rfl]
      rw [show (renderField false f ++
            ((',' :: (renderField false g ++ renderRest fs')) ++ ['\r', '\n'])) ++
            rest =
          renderField false f ++ (',' ::
            (renderField false g ++ (renderRest fs' ++ ('\r' :: '\n' :: rest))))
          from by simp]
      rw [csvFirstField_comma, csvFields_rest fs' g [f] rest]
      simp

theorem csv_roundtrip_run (rows : List (List String)) :
    csvRun .sr [] [] ((rows.map renderRow).flatten) = rows := by
  induction rows with
  | nil => rfl
  | cons row rows ih =>
    rw [List.map_cons, List.flatten_cons, csvRow_run, ih]

/-! ## Claim C7 -/

/-- C7, confirmed.  Writing any sequence of rows of text fields with
`write_csv` and reading the same resource back with `read_csv` yields the
original rows, field for field, in order.  The quoting discipline makes the
round-trip exact: special characters force quoting, quotes are doubled, and
a single empty field is quoted so that its record is not read back as a
blank line. -/
theorem c7_record_roundtrip (rows : List (List String)) :
    read_csv (some (write_csv_content rows)) = rows := by
  show csvRun .sr [] [] (write_csv_content rows).data = rows
  rw [show (write_csv_content rows).data = (rows.map renderRow).flatten from rfl]
  exact csv_roundtrip_run rows

/-! ## Contact Manager claims -/

/-- Updating a key and then looking it up yields the new value. -/
theorem dictGet_dictSet (m : JMap) (k : String) (v : JVal) :
    dictGet (dictSet m k v) k = some v := by
  induction m with
  | nil => simp [dictSet, dictGet]
  | cons kv rest ih =>
    obtain ⟨k', v'⟩ := kv
    by_cases h : k' = k
    · subst h; simp [dictSet, dictGet]
    · simp [dictSet, dictGet, h]
      exact ih

/-- C4, amended.  After construction and any sequence of Contact Manager
operations, every element of the in-memory collection either was loaded
verbatim from the tabular resource at construction (those records are NOT
validated) or was appended by `addContact` and passed email and phone
validation at that moment. -/
theorem c4_loaded_or_validated (fs : FSt) (ops : List CMOp) :
    ∀ c ∈ (cmRun (cmInit fs) ops).2.contacts,
      c ∈ (cmInit fs).2.contacts ∨
      ∃ n e p, c = [n, e, p] ∧ extract_emails e ≠ [] ∧
        validate_phone_number p = true := by
  suffices hgen : ∀ (ops : List CMOp) (w : FSt × ContactManager),
      ∀ c ∈ (cmRun w ops).2.contacts, c ∈ w.2.contacts ∨
        ∃ n e p, c = [n, e, p] ∧ extract_emails e ≠ [] ∧
          validate_phone_number p = true from hgen ops (cmInit fs)
  intro ops
  induction ops with
  | nil => intro w c hc; exact Or.inl hc
  | cons op ops ih =>
    intro w c hc
    rcases ih (cmStep w op) c hc with h | h
    · cases op with
      | addC n e p =>
        cases hadd : add_contact w.2 n e p with
        | ok cm' =>
          have hst : (cmStep w (.addC n e p)).2 = cm' := by simp [cmStep, hadd]
          rw [hst] at h
          unfold add_contact at hadd
          by_cases h1 : extract_emails e = []
          · simp [h1] at hadd
          · by_cases h2 : validate_phone_number p = false
            · simp [h1, h2] at hadd
            · simp [h1, h2] at hadd
              rw [← hadd] at h
              simp at h
              rcases h with h | h
              · exact Or.inl h
              · exact Or.inr ⟨n, e, p, h, h1, by simpa using h2⟩
        | error msg =>
          have hst : cmStep w (.addC n e p) = w := by simp [cmStep, hadd]
          rw [hst] at h
          exact Or.inl h
      | saveC => exact Or.inl h
      | saveM k v => exact Or.inl h
    · exact Or.inr h

/-- C4, counterexample.  The claim includes construction among the
operations after which every element passed validation; but `__init__`
loads the tabular resource without validating: against a resource holding
the record `x,bad,123`, the fresh collection contains an element whose
email field yields no match and whose phone field is invalid — it never
passed validation. -/
theorem c4_counterexample :
    (cmInit ⟨some "x,bad,123\r\n", none⟩).2.contacts = [["x", "bad", "123"]] ∧
    extract_emails "bad" = [] ∧ validate_phone_number "123" = false := by
  refine ⟨by decide, by decide, by decide⟩

/-- Witness for `c4_loaded_or_validated`: one validated `addContact` on an
initially empty world. -/
theorem c4_loaded_or_validated_witness :
    ["A", "a@b.c", "123-4567"] ∈
      (cmRun (cmInit ⟨none, none⟩) [CMOp.addC "A" "a@b.c" "123-4567"]).2.contacts ∧
    (["A", "a@b.c", "123-4567"] ∈ (cmInit ⟨none, none⟩).2.contacts ∨
      ∃ n e p, ["A", "a@b.c", "123-4567"] = [n, e, p] ∧ extract_emails e ≠ [] ∧
        validate_phone_number p = true) :=
  ⟨by decide,
   c4_loaded_or_validated ⟨none, none⟩ [CMOp.addC "A" "a@b.c" "123-4567"]
     ["A", "a@b.c", "123-4567"] (by decide)⟩

/-- C5, confirmed.  `addContact` fails with the invalid-email error when
`extractEmails(email)` yields no match; otherwise it fails with the
invalid-phone error when `validatePhone(phone)` is false; otherwise it
raises nothing and appends `[name, email, phone]` to the in-memory
collection.  The two errors are distinguishable (both are `ValueError`s in
the source, told apart by their messages). -/
theorem c5_add_contact_contract (cm : ContactManager) (name email phone : String) :
    (extract_emails email = [] →
      add_contact cm name email phone = .error invalidEmailMsg) ∧
    (extract_emails email ≠ [] → validate_phone_number phone = false →
      add_contact cm name email phone = .error invalidPhoneMsg) ∧
    (extract_emails email ≠ [] → validate_phone_number phone = true →
      add_contact cm name email phone =
        .ok { cm with contacts := cm.contacts ++ [[name, email, phone]] }) ∧
    invalidEmailMsg ≠ invalidPhoneMsg := by
  refine ⟨?_, ?_, ?_, by decide⟩
  · intro h; simp [add_contact, h]
  · intro h1 h2; simp [add_contact, h1, h2]
  · intro h1 h2; simp [add_contact, h1, h2]

/-- Witness for `c5_add_contact_contract` at the spec's own example inputs:
`"invalid-email"` with a valid phone, a valid email with `"1234567890"`,
and a fully valid contact. -/
theorem c5_add_contact_contract_witness :
    add_contact ⟨[], []⟩ "Invalid Email" "invalid-email" "123-456-7890" =
      .error invalidEmailMsg ∧
    add_contact ⟨[], []⟩ "Invalid Phone" "valid@example.com" "1234567890" =
      .error invalidPhoneMsg ∧
    add_contact ⟨[], []⟩ "Mol7" "Mol7@kent.ac.uk" "123-456-7890" =
      .ok ⟨[["Mol7", "Mol7@kent.ac.uk", "123-456-7890"]], []⟩ :=
  ⟨(c5_add_contact_contract ⟨[], []⟩ "Invalid Email" "invalid-email"
      "123-456-7890").1 (by decide),
   (c5_add_contact_contract ⟨[], []⟩ "Invalid Phone" "valid@example.com"
      "1234567890").2.1 (by decide) (by decide),
   (c5_add_contact_contract ⟨[], []⟩ "Mol7" "Mol7@kent.ac.uk"
      "123-456-7890").2.2.1 (by decide) (by decide)⟩

/-- C6, confirmed.  After a successful `addContact`, the last element of
the in-memory collection is exactly `[name, email, phone]`, in that field
order, and the operation leaves both backing resources untouched — the
whole effect of the step is the new in-memory state. -/
theorem c6_add_in_memory (fs : FSt) (cm cm' : ContactManager)
    (name email phone : String)
    (h : add_contact cm name email phone = .ok cm') :
    cm'.contacts.getLast? = some [name, email, phone] ∧
    cmStep (fs, cm) (.addC name email phone) = (fs, cm') := by
  refine ⟨?_, by simp [cmStep, h]⟩
  unfold add_contact at h
  by_cases h1 : extract_emails email = []
  · simp [h1] at h
  · by_cases h2 : validate_phone_number phone = false
    · simp [h1, h2] at h
    · simp [h1, h2] at h
      rw [← h]
      simp

/-- Witness for `c6_add_in_memory`: a successful append on a nonempty
collection; the tabular resource content `"z"` is untouched. -/
theorem c6_add_in_memory_witness :
    add_contact ⟨[["old", "o@o.o", "111-2222"]], []⟩ "A" "a@b.c" "123-4567" =
      .ok ⟨[["old", "o@o.o", "111-2222"], ["A", "a@b.c", "123-4567"]], []⟩ ∧
    (⟨[["old", "o@o.o", "111-2222"], ["A", "a@b.c", "123-4567"]],
        ([] : JMap)⟩ : ContactManager).contacts.getLast? =
      some ["A", "a@b.c", "123-4567"] ∧
    cmStep ((⟨some "z", none⟩ : FSt), ⟨[["old", "o@o.o", "111-2222"]], []⟩)
        (.addC "A" "a@b.c" "123-4567") =
      (⟨some "z", none⟩,
       ⟨[["old", "o@o.o", "111-2222"], ["A", "a@b.c", "123-4567"]], []⟩) := by
  refine ⟨rfl, ?_, ?_⟩
  · exact (c6_add_in_memory ⟨some "z", none⟩ ⟨[["old", "o@o.o", "111-2222"]], []⟩
      ⟨[["old", "o@o.o", "111-2222"], ["A", "a@b.c", "123-4567"]], []⟩
      "A" "a@b.c" "123-4567" rfl).1
  · exact (c6_add_in_memory ⟨some "z", none⟩ ⟨[["old", "o@o.o", "111-2222"]], []⟩
      ⟨[["old", "o@o.o", "111-2222"], ["A", "a@b.c", "123-4567"]], []⟩
      "A" "a@b.c" "123-4567" rfl).2

/-- C8, confirmed.  Reading a store whose backing resource is absent never
raises — the embedding is total — and yields the empty sequence for the
Record Store and the empty mapping for the Metadata Store (the source
catches `FileNotFoundError` and returns the empty result). -/
theorem c8_absent_resources (fs : FSt) :
    (fs.csvFile = none → read_csv fs.csvFile = []) ∧
    (fs.jsonFile = none → read_json fs.jsonFile = []) := by
  constructor <;> intro h <;> rw [h] <;> rfl

/-- Witness for `c8_absent_resources` with both resources absent. -/
theorem c8_absent_resources_witness :
    read_csv (FSt.mk none none).csvFile = [] ∧
    read_json (FSt.mk none none).jsonFile = [] :=
  ⟨(c8_absent_resources ⟨none, none⟩).1 rfl,
   (c8_absent_resources ⟨none, none⟩).2 rfl⟩

/-- C9, confirmed.  `saveMetadata(key, value)` sets `metadata[key] = value`
in the in-memory mapping and immediately persists the entire mapping to the
structured resource; re-reading that resource afterwards yields a mapping
containing the pair. -/
theorem c9_save_metadata_persists (fs : FSt) (cm : ContactManager)
    (k : String) (v : JVal) :
    cmStep (fs, cm) (.saveM k v) =
      ({ fs with jsonFile := some (dictSet cm.metadata k v) },
       { cm with metadata := dictSet cm.metadata k v }) ∧
    dictGet (read_json (cmStep (fs, cm) (.saveM k v)).1.jsonFile) k = some v := by
  refine ⟨rfl, ?_⟩
  show dictGet (dictSet cm.metadata k v) k = some v
  exact dictGet_dictSet cm.metadata k v

/-- C10, confirmed.  When `addContact` raises (invalid email or invalid
phone), the step leaves the resources and the in-memory state exactly as
they were, and the in-memory outcome of the step never depends on the
backing resources at all — `add_contact` takes no resource input, so the
operation reads and writes neither file. -/
theorem c10_failure_atomicity (fs fsAlt : FSt) (cm : ContactManager)
    (name email phone err : String)
    (h : add_contact cm name email phone = .error err) :
    cmStep (fs, cm) (.addC name email phone) = (fs, cm) ∧
    (cmStep (fs, cm) (.addC name email phone)).2 =
      (cmStep (fsAlt, cm) (.addC name email phone)).2 := by
  have h1 : cmStep (fs, cm) (.addC name email phone) = (fs, cm) := by
    simp [cmStep, h]
  have h2 : cmStep (fsAlt, cm) (.addC name email phone) = (fsAlt, cm) := by
    simp [cmStep, h]
  exact ⟨h1, by rw [h1, h2]⟩

/-- Witness for `c10_failure_atomicity`: an invalid-email `addContact` on a
world with nonempty collection, metadata and resources. -/
theorem c10_failure_atomicity_witness :
    cmStep ((⟨some "z", some []⟩ : FSt),
        ⟨[["k", "e@e.e", "123-4567"]], [("m", JVal.jstr "x")]⟩)
        (.addC "N" "no-at-sign" "123-4567") =
      (⟨some "z", some []⟩,
       ⟨[["k", "e@e.e", "123-4567"]], [("m", JVal.jstr "x")]⟩) :=
  (c10_failure_atomicity ⟨some "z", some []⟩ ⟨none, none⟩
    ⟨[["k", "e@e.e", "123-4567"]], [("m", JVal.jstr "x")]⟩
    "N" "no-at-sign" "123-4567" invalidEmailMsg rfl).1
